import Mathlib

/-!
Verification development for the Dragonfly2 daemon core: a shallow embedding
of the stream peer task engine's pure logic, translated from the Go source
(`client/daemon/transport/transport.go`, the piece downloader in
`client/daemon/peer`, `pkg/source/source_client.go`), together with theorems
checking the natural-language specification against it.
-/

namespace Dragonfly

/-! ## HTTP header model

Go's `http.Header` is a map from canonical header keys to value lists; the
code under study only uses `Get` (first value or empty string), `Set`
(replace all values with one) and `Del` (remove the key).  We model a header
as an association list with keys already in canonical MIME form, which is the
form all keys take in the code paths embedded here. -/

abbrev Header := List (String × String)

/-- First value stored for a key, or the empty string (Go `Header.Get`). -/
def hGet : Header → String → String
  | [], _ => ""
  | (k, v) :: rest, key => if k = key then v else hGet rest key

/-- Remove every entry for a key (Go `Header.Del`). -/
def hDel : Header → String → Header
  | [], _ => []
  | (k, v) :: rest, key =>
    if k = key then hDel rest key else (k, v) :: hDel rest key

/-- Replace all values of a key with a single one (Go `Header.Set`). -/
def hSet (h : Header) (key v : String) : Header :=
  (key, v) :: hDel h key

/-- Delete every key of a list in order (a loop of `Header.Del` calls). -/
def delHeaders (h : Header) (keys : List String) : Header :=
  keys.foldl hDel h

/-! ## transport.go -/

/-- The hop-by-hop and dragonfly-specific headers removed by `delHopHeaders`
(`transport.go`, `hopHeaders`). -/
def hopHeaders : List String :=
  ["Connection", "Proxy-Connection", "Keep-Alive", "Proxy-Authenticate",
   "Proxy-Authorization", "Te", "Trailer", "Transfer-Encoding", "Upgrade",
   "Accept", "User-Agent", "X-Forwarded-For"]

/-- Modelled from the spec: the trace-context headers removed alongside the
hop-by-hop headers (`traceContext.Fields()` of the OpenTelemetry
`TraceContext` propagator, an external dependency not under `src/`), in
canonical MIME key form. -/
def traceContextFields : List String :=
  ["Traceparent", "Tracestate"]

/-- `delHopHeaders` of `transport.go`: delete the hop-by-hop headers, then
the trace-context headers. -/
def delHopHeaders (h : Header) : Header :=
  delHeaders (delHeaders h hopHeaders) traceContextFields

/-- An incoming HTTP request as seen by the transport: method, parsed URL
path and host, and the header map. -/
structure Request where
  method : String
  urlPath : String
  urlHost : String
  header : Header
deriving DecidableEq

/-- The literal characters of the regex `layerReg` between its anchors and
dot-stars: `/blobs/sha256`. -/
def layerNeedle : List Char := "/blobs/sha256".data

/-- Boolean prefix test on character lists. -/
def isPre : List Char → List Char → Bool
  | [], _ => true
  | _ :: _, [] => false
  | a :: as, b :: bs => a = b && isPre as bs

/-- Executable matcher for the Go regex `^.+/blobs/sha256.*$` (`layerReg` in
`transport.go`): the whole path is one or more non-newline characters,
then `/blobs/sha256`, then any non-newline characters up to the end.
(Go's `.` does not match a newline, and `^`/`$` anchor at text
boundaries by default.) -/
def layerRegMatch (p : String) : Bool :=
  (List.range p.data.length).any fun i =>
    decide (1 ≤ i) && isPre layerNeedle (p.data.drop i)
      && (p.data.take i).all (fun c => c ≠ '\n')
      && (p.data.drop (i + layerNeedle.length)).all (fun c => c ≠ '\n')

/-- Declarative reading of the regex `^.+/blobs/sha256.*$`: the path splits
as a non-empty newline-free part, the literal `/blobs/sha256`, and a
newline-free tail. -/
def LayerRegSpec (p : String) : Prop :=
  ∃ s1 s2 : List Char,
    p.data = s1 ++ layerNeedle ++ s2 ∧ s1 ≠ [] ∧ '\n' ∉ s1 ∧ '\n' ∉ s2

/-- `NeedUseDragonfly` of `transport.go`: route via dragonfly exactly for GET
requests whose URL path matches `layerReg`. -/
def NeedUseDragonfly (req : Request) : Bool :=
  req.method == "GET" && layerRegMatch req.urlPath

/-- `base.UrlMeta` as populated by `transport.download`. -/
structure UrlMeta where
  range : String
  digest : String
  filter : String
  tag : String
  header : Header
deriving DecidableEq

/-- The header/meta processing performed on a request routed via dragonfly:
`RoundTrip` deletes `Accept-Encoding`, then `download` reads `Range`,
harvests `X-Dragonfly-Filter` and `X-Dragonfly-Biz` (falling back to the
configured defaults; the harvest removes the header — `httputils.PickHeader`,
modelled from the spec since it is not under `src/`), deletes the hop-by-hop
and trace-context headers, and hands the remaining headers to the task in
the meta. -/
def processRequestHeaders (defaultFilter defaultBiz : String) (h : Header) : UrlMeta :=
  let h1 := hDel h "Accept-Encoding"
  let rg := hGet h1 "Range"
  let fv := hGet h1 "X-Dragonfly-Filter"
  let filter := if fv = "" then defaultFilter else fv
  let h2 := hDel h1 "X-Dragonfly-Filter"
  let tv := hGet h2 "X-Dragonfly-Biz"
  let tag := if tv = "" then defaultBiz else tv
  let h3 := hDel h2 "X-Dragonfly-Biz"
  let h4 := delHopHeaders h3
  { range := rg, digest := "", filter := filter, tag := tag, header := h4 }

/-- What `transport.RoundTrip` does with a request: dragonfly route with the
processed meta, or direct forwarding to the base round tripper. -/
inductive RoundTripAction where
  | viaDragonfly : UrlMeta → RoundTripAction
  | direct : Header → RoundTripAction
deriving DecidableEq

/-- `transport.RoundTrip` (`transport.go`): when the routing predicate
holds, process headers and go via dragonfly; otherwise set the `Host`
header from the URL host (`req.Host = req.URL.Host; req.Header.Set("Host",
req.Host)`) and forward to the base round tripper. -/
def roundTrip (shouldUseDragonfly : Request → Bool)
    (defaultFilter defaultBiz : String) (req : Request) : RoundTripAction :=
  if shouldUseDragonfly req then
    RoundTripAction.viaDragonfly (processRequestHeaders defaultFilter defaultBiz req.header)
  else
    RoundTripAction.direct (hSet req.header "Host" req.urlHost)

/-! Response construction for the dragonfly route (`transport.download`). -/

/-- Lookup in a Go `map[string]string` modelled as an association list. -/
def mapGetS : List (String × String) → String → Option String
  | [], _ => none
  | (k, v) :: rest, key => if k = key then some v else mapGetS rest key

/-- Decimal digit accumulator of Go `strconv.ParseInt`. -/
def parseDigitsLoop : List Char → Nat → Option Nat
  | [], acc => some acc
  | c :: rest, acc =>
    if '0' ≤ c ∧ c ≤ '9' then parseDigitsLoop rest (acc * 10 + (c.toNat - 48))
    else none

/-- Parse a non-empty run of decimal digits. -/
def parseDigits : List Char → Option Nat
  | [] => none
  | l => parseDigitsLoop l 0

/-- Go `strconv.ParseInt(s, 10, 64)`: optional sign, non-empty digits, value
within the int64 range; `none` models a non-nil error. -/
def goParseInt64 (s : String) : Option Int :=
  match s.data with
  | '+' :: rest =>
    match parseDigits rest with
    | some n => if n ≤ 2 ^ 63 - 1 then some (Int.ofNat n) else none
    | none => none
  | '-' :: rest =>
    match parseDigits rest with
    | some n => if n ≤ 2 ^ 63 then some (-(Int.ofNat n : Int)) else none
    | none => none
  | l =>
    match parseDigits l with
    | some n => if n ≤ 2 ^ 63 - 1 then some (Int.ofNat n) else none
    | none => none

/-- The HTTP response built by `transport.download` on success; the body
stream is an opaque handle. -/
structure DfResponse where
  statusCode : Nat
  body : Nat
  contentLength : Int
deriving DecidableEq

/-- `transport.download` response construction: status 200, the stream from
`StartStreamTask` as body, and `ContentLength` parsed from the attribute
map's `Content-Length` entry when present and parseable, `-1` otherwise. -/
def downloadResponse (attr : List (String × String)) (body : Nat) : DfResponse :=
  { statusCode := 200
    body := body
    contentLength :=
      match mapGetS attr "Content-Length" with
      | some l =>
        match goParseInt64 l with
        | some i => i
        | none => -1
      | none => -1 }

/-! ## piece_downloader.go (client/daemon/peer) -/

/-- `base.PieceInfo`, the fields used by the piece downloader.  `rangeStart`
is a Go `uint64` and `rangeSize` a `uint32`, modelled as naturals below the
respective bounds. -/
structure PieceInfo where
  pieceNum : Int
  rangeStart : Nat
  rangeSize : Nat
  pieceMd5 : String
deriving DecidableEq

/-- `DownloadPieceRequest` of the peer package. -/
structure DownloadPieceRequest where
  taskID : String
  peerID : String
  dstPid : String
  dstAddr : String
  calcDigest : Bool
  piece : PieceInfo
deriving DecidableEq

/-- A remote peer's HTTP response: status code, status line and body bytes. -/
structure HTTPResponse where
  statusCode : Nat
  status : String
  body : List Nat
deriving DecidableEq

/-- `pieceDownloadError`: `statusCode` and `status` keep their Go zero
values for connection errors. -/
structure PieceDownloadError where
  connectionError : Bool
  status : String
  statusCode : Nat
deriving DecidableEq

/-- `isConnectionError` of `piece_downloader.go` (restricted to
`pieceDownloadError` values, the only errors `DownloadPiece` produces). -/
def isConnectionError (e : PieceDownloadError) : Bool :=
  e.connectionError

/-- `isPieceNotFound` of `piece_downloader.go`. -/
def isPieceNotFound (e : PieceDownloadError) : Bool :=
  e.statusCode == 404

/-- The reader handed back by `DownloadPiece`: either the raw response body,
or a digest-verifying reader over the length-limited body
(`digestutils.NewDigestReader` over `io.LimitReader`). -/
inductive PieceReader where
  | raw : List Nat → PieceReader
  | digest : String → List Nat → PieceReader
deriving DecidableEq

/-- `pieceDownloader.DownloadPiece`: the outcome of `httpClient.Do` is the
input (`none` models a failed round trip).  A failed round trip yields a
connection error; a status above 299 yields a non-connection error carrying
the status; otherwise the body is returned, wrapped in a digest-verifying
reader limited to `RangeSize` bytes when `CalcDigest` is set. -/
def DownloadPiece (req : DownloadPieceRequest) (result : Option HTTPResponse) :
    Except PieceDownloadError PieceReader :=
  match result with
  | none => Except.error { connectionError := true, status := "", statusCode := 0 }
  | some resp =>
    if resp.statusCode > 299 then
      Except.error
        { connectionError := false, status := resp.status, statusCode := resp.statusCode }
    else if req.calcDigest then
      Except.ok (PieceReader.digest req.piece.pieceMd5 (resp.body.take req.piece.rangeSize))
    else
      Except.ok (PieceReader.raw resp.body)

/-- Modelled from the spec: `digestutils.NewDigestReader` (not under `src/`)
"verifies MD5(body)==piece.PieceMD5 incrementally and fails its final read
with a digest-mismatch error".  Reading a digest reader to completion
yields its bytes when the digest matches and an error otherwise; `md5` is
the digest function. -/
def readAllPieceReader (md5 : List Nat → String) : PieceReader → Except String (List Nat)
  | PieceReader.raw b => Except.ok b
  | PieceReader.digest expected b =>
    if md5 b = expected then Except.ok b else Except.error "digest not match"

/-- Modelled from the spec: `upload.PeerDownloadHTTPPathPrefix` (the upload
package is not under `src/`); the spec's peer upload URL is
`/download/<firstThreeOfTaskID>/<taskID>`. -/
def PeerDownloadHTTPPathPrefix : String := "/download/"

/-- The request built by `buildDownloadPieceHTTPRequest`. -/
structure BuiltRequest where
  method : String
  url : String
  header : Header
deriving DecidableEq

/-- `buildDownloadPieceHTTPRequest` of `piece_downloader.go`: the builder
writes `http://`, the destination address, the download path prefix, the
first three characters of the task ID, `/`, the task ID, `?peerId=` and the
destination peer ID; the `Range` header carries
`bytes=<RangeStart>-<RangeStart+RangeSize-1>` in wrapping `uint64`
arithmetic. -/
def buildDownloadPieceHTTPRequest (d : DownloadPieceRequest) : BuiltRequest :=
  let u := "http://" ++ d.dstAddr ++ PeerDownloadHTTPPathPrefix
    ++ String.mk (d.taskID.data.take 3) ++ "/" ++ d.taskID
    ++ "?peerId=" ++ d.dstPid
  { method := "GET"
    url := u
    header :=
      [("Range", "bytes=" ++ toString d.piece.rangeStart ++ "-"
        ++ toString ((d.piece.rangeStart + d.piece.rangeSize + (2 ^ 64 - 1)) % 2 ^ 64))] }

/-! ## pkg/source/source_client.go -/

/-- `UnexpectedStatusCodeError` of `source_client.go`. -/
structure UnexpectedStatusCodeError where
  allowed : List Int
  got : Int
deriving DecidableEq

/-- `UnexpectedStatusCodeError.Got`. -/
def UnexpectedStatusCodeError.Got (e : UnexpectedStatusCodeError) : Int :=
  e.got

/-- The membership loop of `CheckResponseCode`. -/
def checkAllowedLoop (respCode : Int) : List Int → Bool
  | [] => false
  | v :: rest => if respCode = v then true else checkAllowedLoop respCode rest

/-- `CheckResponseCode` of `source_client.go`: `none` models a nil error. -/
def CheckResponseCode (respCode : Int) (allowed : List Int) :
    Option UnexpectedStatusCodeError :=
  if checkAllowedLoop respCode allowed then none
  else some { allowed := allowed, got := respCode }

/-- Go `strings.ToLower` restricted to the ASCII schemes the registry uses,
defined structurally over the characters. -/
def goToLower (s : String) : String :=
  String.mk (s.data.map Char.toLower)

/-- A registered client: `clientWrapper`, keeping the identity of the wrapped
`ResourceClient` (Go interface identity, modelled as a number). -/
structure ClientWrapper where
  rc : Nat
deriving DecidableEq

/-- The `clients` map of `clientManager`, as an association list. -/
abbrev ClientMap := List (String × ClientWrapper)

/-- Go map lookup on the clients map. -/
def mapLookup : ClientMap → String → Option ClientWrapper
  | [], _ => none
  | (k, v) :: rest, key => if k = key then some v else mapLookup rest key

/-- Go map assignment on the clients map: the new binding shadows any older
one for lookups (extensionally the same as map assignment; `Register` only
assigns to keys that are absent). -/
def mapSet (m : ClientMap) (key : String) (v : ClientWrapper) : ClientMap :=
  (key, v) :: m

/-- `clientManager.Register` of `source_client.go`: lower-case the scheme;
when a client is already registered there, error out on a different
resource client and do nothing on the identical one; otherwise store a
wrapper under the scheme (`doRegister` lower-cases the already-lowercased
scheme again; Go `strings.ToLower` is idempotent, so the key is the same).
Returns the error message (if any) and the resulting map. -/
def Register (m : ClientMap) (scheme : String) (resourceClient : Nat) :
    Option String × ClientMap :=
  let s := goToLower scheme
  match mapLookup m s with
  | some client =>
    if client.rc ≠ resourceClient then
      (some ("client with scheme " ++ s ++ " already exist"), m)
    else
      (none, m)
  | none => (none, mapSet m s { rc := resourceClient })

/-! ## Back-source (modelled from the spec)

The conductor's back-source loop (`peerTaskConductor`/`pieceManager.DownloadSource`)
is not under `src/`; only its test
(`peertask_stream_backsource_partial_test.go`) is.  The definitions below
follow spec §4.4 "Back-source": the origin stream for the full range is
sliced into `PieceSize` chunks; chunks whose piece is already stored are
skipped (their bytes are consumed from the stream but not re-stored); the
others are stored. -/

/-- The byte range of piece `i` of a content, for piece size `ps`. -/
def pieceContent (origin : List Nat) (ps i : Nat) : List Nat :=
  (origin.drop (i * ps)).take ps

/-- Number of pieces for a known content length: `⌈length / ps⌉`
(`math.Ceil(contentLength / pieceSize)`). -/
def numPieces (length ps : Nat) : Nat :=
  (length + ps - 1) / ps

/-- A piece store for one task: stored bytes per piece number. -/
abbrev PieceStoreState := Nat → Option (List Nat)

/-- Modelled from the spec: the back-source loop over pieces `i, i+1, …`
with `n` pieces left and the remaining origin stream.  An already-stored
piece is skipped in the origin stream and not re-stored; a missing piece is
taken from the stream and stored. -/
def backSourceLoop (ps : Nat) : Nat → Nat → List Nat → PieceStoreState → PieceStoreState
  | _, 0, _, store => store
  | i, n + 1, stream, store =>
    match store i with
    | some _ => backSourceLoop ps (i + 1) n (stream.drop ps) store
    | none =>
      backSourceLoop ps (i + 1) n (stream.drop ps)
        (fun j => if j = i then some (stream.take ps) else store j)

/-- Modelled from the spec: back-source a task with origin content `origin`
and piece size `ps`, starting from the pieces already stored. -/
def backSource (origin : List Nat) (ps : Nat) (store : PieceStoreState) : PieceStoreState :=
  backSourceLoop ps 0 (numPieces origin.length ps) origin store

/-- `ReadAllPieces`: serialise the first `n` pieces of a store in piece-number
order; `none` when a required piece is missing. -/
def readAllPieces (store : PieceStoreState) : Nat → Option (List Nat)
  | 0 => some []
  | n + 1 =>
    match readAllPieces store n, store n with
    | some acc, some b => some (acc ++ b)
    | _, _ => none

/-! ## Concrete inputs used by witnesses -/

/-- The set of header keys that the dragonfly route removes before handing
the remaining headers to `StartStreamTask`. -/
def removedRequestHeaderKeys : List String :=
  "Accept-Encoding" :: "X-Dragonfly-Filter" :: "X-Dragonfly-Biz"
    :: (hopHeaders ++ traceContextFields)

/-- A request the routing predicate rejects (plain page fetch). -/
def reqDirect : Request :=
  { method := "GET", urlPath := "/index.html",
    urlHost := "example.com", header := [] }

/-- A container-image layer request the routing predicate accepts. -/
def reqLayer : Request :=
  { method := "GET", urlPath := "/v2/library/nginx/blobs/sha256:ab12",
    urlHost := "registry.example.com",
    header := [("Accept-Encoding", "gzip"), ("User-Agent", "curl"),
               ("Range", "bytes=0-99"), ("X-Dragonfly-Filter", "f1"),
               ("Traceparent", "00-aa"), ("X-Custom", "v")] }

/-- A concrete piece download request. -/
def reqPiece : DownloadPieceRequest :=
  { taskID := "task-back-source-partial-0", peerID := "peer-0",
    dstPid := "peer-x", dstAddr := "127.0.0.1:80", calcDigest := false,
    piece :=
      { pieceNum := 0, rangeStart := 0, rangeSize := 1024,
        pieceMd5 := "md5-piece-0" } }

/-- A concrete 404 response from a peer. -/
def resp404 : HTTPResponse :=
  { statusCode := 404, status := "404 Not Found", body := [] }

/-- A concrete successful response from a peer. -/
def respOk : HTTPResponse :=
  { statusCode := 200, status := "200 OK", body := [1, 2, 3, 4] }

/-- A toy digest function for witnesses: the rendered byte list. -/
def md5Toy (l : List Nat) : String := toString l

/-! ## Header lemmas -/

theorem hGet_hDel (h : Header) (key k : String) :
    hGet (hDel h key) k = if k = key then "" else hGet h k := by
  induction h with
  | nil => by_cases hk : k = key <;> simp [hDel, hGet, hk]
  | cons p rest ih =>
    obtain ⟨a, v⟩ := p
    by_cases hak : a = key
    · subst hak
      by_cases hk : k = a
      · subst hk
        simp [hDel, hGet, ih]
      · simp [hDel, hGet, ih, hk, Ne.symm hk]
    · by_cases hk : k = key
      · subst hk
        simp [hDel, hGet, hak, ih, Ne.symm hak]
      · by_cases hakk : a = k <;> simp [hDel, hGet, hak, hk, hakk, ih]

theorem hGet_delHeaders (ks : List String) (h : Header) (k : String) :
    hGet (delHeaders h ks) k = if k ∈ ks then "" else hGet h k := by
  induction ks generalizing h with
  | nil => simp [delHeaders]
  | cons a rest ih =>
    have hstep : delHeaders h (a :: rest) = delHeaders (hDel h a) rest := rfl
    rw [hstep, ih (hDel h a)]
    by_cases hk : k ∈ rest
    · simp [hk]
    · rw [if_neg hk, hGet_hDel]
      by_cases hka : k = a <;> simp [hka, hk]

theorem hGet_hSet (h : Header) (key v k : String) :
    hGet (hSet h key v) k = if k = key then v else hGet h k := by
  unfold hSet
  by_cases hk : k = key
  · simp [hGet, hk]
  · simp [hGet, Ne.symm hk, hk, hGet_hDel]

/-! ## C10: CheckResponseCode -/

theorem checkAllowedLoop_iff (respCode : Int) (l : List Int) :
    checkAllowedLoop respCode l = true ↔ respCode ∈ l := by
  induction l with
  | nil => simp [checkAllowedLoop]
  | cons v rest ih =>
    by_cases hv : respCode = v <;> simp [checkAllowedLoop, hv, ih]

/-- Claim C10: `CheckResponseCode` returns nil exactly when the status code
is one of the allowed codes, and otherwise returns an
`UnexpectedStatusCodeError` whose `Got()` is that status code. -/
theorem checkResponseCode_spec (respCode : Int) (allowed : List Int) :
    (CheckResponseCode respCode allowed = none ↔ respCode ∈ allowed)
    ∧ (∀ e, CheckResponseCode respCode allowed = some e →
        e.Got = respCode ∧ e.allowed = allowed) := by
  unfold CheckResponseCode
  by_cases hmem : checkAllowedLoop respCode allowed = true
  · rw [if_pos hmem]
    exact ⟨by simp [(checkAllowedLoop_iff respCode allowed).mp hmem], by intro e h; cases h⟩
  · rw [if_neg hmem]
    constructor
    · simp only [reduceCtorEq, false_iff]
      intro hin
      exact hmem ((checkAllowedLoop_iff respCode allowed).mpr hin)
    · intro e h
      cases h
      exact ⟨rfl, rfl⟩

/-- Witness for C10 at a concrete code and list. -/
theorem checkResponseCode_spec_witness :
    (CheckResponseCode 200 [200, 206] = none)
    ∧ (∀ e, CheckResponseCode 502 [200, 206] = some e → e.Got = 502 ∧ e.allowed = [200, 206]) :=
  ⟨(checkResponseCode_spec 200 [200, 206]).1.mpr (by decide),
   (checkResponseCode_spec 502 [200, 206]).2⟩

/-! ## C5: clientManager.Register -/

/-- Claim C5: `Register` stores the client under the lowercase scheme; a
second `Register` for the same scheme is a no-op for an identical resource
client and an error (leaving the registry unchanged) for a different one. -/
theorem register_lowercase_idempotent (m : ClientMap) (scheme : String) (rc : Nat) :
    (mapLookup m (goToLower scheme) = none →
      Register m scheme rc = (none, mapSet m (goToLower scheme) { rc := rc })
      ∧ mapLookup (Register m scheme rc).2 (goToLower scheme) = some { rc := rc })
    ∧ (∀ client, mapLookup m (goToLower scheme) = some client →
        (client.rc = rc → Register m scheme rc = (none, m))
        ∧ (client.rc ≠ rc → ∃ msg, Register m scheme rc = (some msg, m))) := by
  constructor
  · intro hnone
    have hreg : Register m scheme rc = (none, mapSet m (goToLower scheme) { rc := rc }) := by
      simp only [Register]
      rw [hnone]
    refine ⟨hreg, ?_⟩
    rw [hreg]
    simp [mapSet, mapLookup]
  · intro client hsome
    constructor
    · intro heq
      simp only [Register]
      rw [hsome]
      simp [heq]
    · intro hne
      refine ⟨"client with scheme " ++ goToLower scheme ++ " already exist", ?_⟩
      simp only [Register]
      rw [hsome]
      simp [hne]

/-- Witness for C5: register `HTTP`, then re-register the same client under
`Http` (no-op) and a different client under `http` (error, unchanged). -/
theorem register_lowercase_idempotent_witness :
    Register [] "HTTP" 1 = (none, [("http", { rc := 1 })])
    ∧ Register [("http", { rc := 1 })] "Http" 1 = (none, [("http", { rc := 1 })])
    ∧ (∃ msg, Register [("http", { rc := 1 })] "http" 2 = (some msg, [("http", { rc := 1 })])) :=
  ⟨(((register_lowercase_idempotent [] "HTTP" 1).1 (by decide)).1).trans (by decide),
   ((register_lowercase_idempotent [("http", { rc := 1 })] "Http" 1).2 { rc := 1 } (by decide)).1 rfl,
   ((register_lowercase_idempotent [("http", { rc := 1 })] "http" 2).2 { rc := 1 } (by decide)).2 (by decide)⟩

/-! ## C2: DownloadPiece error classification -/

/-- Claim C2: `DownloadPiece` errors exactly when the round trip fails (a
retryable connection error) or the status code is at least 300 (a
non-connection error); a 404 is classified piece-not-found by
`isPieceNotFound`; any status below 300 returns the response body as the
reader with no error. -/
theorem downloadPiece_error_classification (req : DownloadPieceRequest)
    (result : Option HTTPResponse) :
    ((∃ e, DownloadPiece req result = Except.error e) ↔
      result = none ∨ ∃ resp, result = some resp ∧ 300 ≤ resp.statusCode)
    ∧ (result = none →
        ∃ e, DownloadPiece req result = Except.error e ∧ isConnectionError e = true)
    ∧ (∀ resp, result = some resp → 300 ≤ resp.statusCode →
        ∃ e, DownloadPiece req result = Except.error e ∧ isConnectionError e = false
          ∧ (isPieceNotFound e = true ↔ resp.statusCode = 404))
    ∧ (∀ resp, result = some resp → resp.statusCode < 300 →
        (∃ r, DownloadPiece req result = Except.ok r)
        ∧ (req.calcDigest = false →
            DownloadPiece req result = Except.ok (PieceReader.raw resp.body))) := by
  refine ⟨⟨?_, ?_⟩, ?_, ?_, ?_⟩
  · rintro ⟨e, he⟩
    cases result with
    | none => exact Or.inl rfl
    | some resp =>
      by_cases hs : resp.statusCode > 299
      · exact Or.inr ⟨resp, rfl, by omega⟩
      · exfalso
        cases hc : req.calcDigest <;> simp [DownloadPiece, hs, hc] at he
  · rintro (rfl | ⟨resp, rfl, hs⟩)
    · exact ⟨_, rfl⟩
    · exact ⟨{ connectionError := false, status := resp.status, statusCode := resp.statusCode },
        by simp [DownloadPiece, show resp.statusCode > 299 by omega]⟩
  · rintro rfl
    exact ⟨_, rfl, rfl⟩
  · rintro resp rfl hs
    refine ⟨{ connectionError := false, status := resp.status, statusCode := resp.statusCode },
      by simp [DownloadPiece, show resp.statusCode > 299 by omega], rfl, ?_⟩
    simp [isPieceNotFound]
  · rintro resp rfl hs
    have hneg : ¬ (resp.statusCode > 299) := by omega
    constructor
    · cases hc : req.calcDigest
      · exact ⟨PieceReader.raw resp.body, by simp [DownloadPiece, hneg, hc]⟩
      · exact ⟨PieceReader.digest req.piece.pieceMd5 (resp.body.take req.piece.rangeSize),
          by simp [DownloadPiece, hneg, hc]⟩
    · intro hc
      simp [DownloadPiece, hneg, hc]

/-- Witness for C2: a 404 is a non-connection, piece-not-found error, and a
200 with `calcDigest` off returns the raw body. -/
theorem downloadPiece_error_classification_witness :
    (∃ e, DownloadPiece reqPiece (some resp404) = Except.error e
      ∧ isConnectionError e = false ∧ (isPieceNotFound e = true ↔ resp404.statusCode = 404))
    ∧ DownloadPiece reqPiece (some respOk) = Except.ok (PieceReader.raw [1, 2, 3, 4]) :=
  ⟨(downloadPiece_error_classification reqPiece (some resp404)).2.2.1 resp404 rfl (by decide),
   ((downloadPiece_error_classification reqPiece (some respOk)).2.2.2 respOk rfl (by decide)).2 rfl⟩

/-! ## C3: digest-verifying reader -/

/-- Claim C3: with `CalcDigest` set, a successful `DownloadPiece` returns a
digest-verifying reader over the body limited to `RangeSize` bytes; reading
it to completion fails with a digest-mismatch error exactly when the digest
of those bytes differs from `piece.PieceMd5`, and yields the bytes
otherwise. -/
theorem downloadPiece_digest_reader (md5 : List Nat → String)
    (req : DownloadPieceRequest) (resp : HTTPResponse)
    (hc : req.calcDigest = true) (hs : resp.statusCode < 300) :
    DownloadPiece req (some resp) =
      Except.ok (PieceReader.digest req.piece.pieceMd5 (resp.body.take req.piece.rangeSize))
    ∧ ((∃ msg, readAllPieceReader md5
          (PieceReader.digest req.piece.pieceMd5 (resp.body.take req.piece.rangeSize))
            = Except.error msg)
        ↔ md5 (resp.body.take req.piece.rangeSize) ≠ req.piece.pieceMd5)
    ∧ (md5 (resp.body.take req.piece.rangeSize) = req.piece.pieceMd5 →
        readAllPieceReader md5
          (PieceReader.digest req.piece.pieceMd5 (resp.body.take req.piece.rangeSize))
          = Except.ok (resp.body.take req.piece.rangeSize)) := by
  have hneg : ¬ (resp.statusCode > 299) := by omega
  refine ⟨by simp [DownloadPiece, hneg, hc], ?_, ?_⟩
  · by_cases hd : md5 (resp.body.take req.piece.rangeSize) = req.piece.pieceMd5
    · simp [readAllPieceReader, hd]
    · simp [readAllPieceReader, hd]
  · intro hd
    simp [readAllPieceReader, hd]

/-- Witness for C3: a concrete digest mismatch fails the final read. -/
theorem downloadPiece_digest_reader_witness :
    DownloadPiece { reqPiece with calcDigest := true } (some respOk) =
      Except.ok (PieceReader.digest "md5-piece-0" [1, 2, 3, 4])
    ∧ (∃ msg, readAllPieceReader md5Toy (PieceReader.digest "md5-piece-0" [1, 2, 3, 4])
        = Except.error msg) :=
  ⟨(downloadPiece_digest_reader md5Toy { reqPiece with calcDigest := true } respOk rfl
      (by decide)).1,
   (downloadPiece_digest_reader md5Toy { reqPiece with calcDigest := true } respOk rfl
      (by decide)).2.1.mpr (by decide)⟩

/-! ## C7: response construction on the dragonfly route -/

/-- Claim C7: the response built for a successful stream task has status 200,
the stream as its body, and a content length parsed from the attribute map's
`Content-Length` entry when present and parseable, `-1` otherwise. -/
theorem downloadResponse_spec (attr : List (String × String)) (body : Nat) :
    (downloadResponse attr body).statusCode = 200
    ∧ (downloadResponse attr body).body = body
    ∧ (∀ s i, mapGetS attr "Content-Length" = some s → goParseInt64 s = some i →
        (downloadResponse attr body).contentLength = i)
    ∧ (mapGetS attr "Content-Length" = none →
        (downloadResponse attr body).contentLength = -1)
    ∧ (∀ s, mapGetS attr "Content-Length" = some s → goParseInt64 s = none →
        (downloadResponse attr body).contentLength = -1) := by
  refine ⟨rfl, rfl, ?_, ?_, ?_⟩
  · intro s i hs hi
    simp [downloadResponse, hs, hi]
  · intro hn
    simp [downloadResponse, hn]
  · intro s hs hn
    simp [downloadResponse, hs, hn]

/-- Witness for C7 at a concrete attribute map. -/
theorem downloadResponse_spec_witness :
    (downloadResponse [("Content-Length", "10240")] 7).statusCode = 200
    ∧ (downloadResponse [("Content-Length", "10240")] 7).contentLength = 10240
    ∧ (downloadResponse [("X-Other", "v")] 7).contentLength = -1 :=
  ⟨(downloadResponse_spec [("Content-Length", "10240")] 7).1,
   (downloadResponse_spec [("Content-Length", "10240")] 7).2.2.1 "10240" 10240
     (by decide) (by decide),
   (downloadResponse_spec [("X-Other", "v")] 7).2.2.2.1 (by decide)⟩

/-! ## C4: the piece download HTTP request -/

/-- Claim C4: for a task ID of at least three characters, the piece request
is a GET of `http://<DstAddr>/download/<first-3>/<taskID>?peerId=<DstPid>`
with a `Range: bytes=<RangeStart>-<RangeStart+RangeSize-1>` header (the
bounds keep the `uint64` arithmetic from wrapping). -/
theorem buildDownloadPieceHTTPRequest_spec (d : DownloadPieceRequest)
    (h3 : 3 ≤ d.taskID.length)
    (h1 : 1 ≤ d.piece.rangeStart + d.piece.rangeSize)
    (h2 : d.piece.rangeStart + d.piece.rangeSize ≤ 2 ^ 64) :
    (buildDownloadPieceHTTPRequest d).method = "GET"
    ∧ (buildDownloadPieceHTTPRequest d).url =
        "http://" ++ d.dstAddr ++ "/download/" ++ String.mk (d.taskID.data.take 3)
          ++ "/" ++ d.taskID ++ "?peerId=" ++ d.dstPid
    ∧ (buildDownloadPieceHTTPRequest d).header =
        [("Range", "bytes=" ++ toString d.piece.rangeStart ++ "-"
          ++ toString (d.piece.rangeStart + d.piece.rangeSize - 1))] := by
  have hmod : (d.piece.rangeStart + d.piece.rangeSize + (2 ^ 64 - 1)) % 2 ^ 64
      = d.piece.rangeStart + d.piece.rangeSize - 1 := by omega
  refine ⟨rfl, rfl, ?_⟩
  simp only [buildDownloadPieceHTTPRequest]
  rw [hmod]

/-- Witness for C4 at a concrete request. -/
theorem buildDownloadPieceHTTPRequest_spec_witness :
    (buildDownloadPieceHTTPRequest reqPiece).url =
      "http://127.0.0.1:80/download/tas/task-back-source-partial-0?peerId=peer-x"
    ∧ (buildDownloadPieceHTTPRequest reqPiece).header = [("Range", "bytes=0-1023")] :=
  ⟨((buildDownloadPieceHTTPRequest_spec reqPiece (by decide) (by decide)
      (by decide)).2.1).trans (by decide),
   ((buildDownloadPieceHTTPRequest_spec reqPiece (by decide) (by decide)
      (by decide)).2.2).trans (by decide)⟩

/-! ## C6: the routing predicate -/

theorem isPre_iff (l₁ l₂ : List Char) : isPre l₁ l₂ = true ↔ ∃ t, l₂ = l₁ ++ t := by
  induction l₁ generalizing l₂ with
  | nil => simp [isPre]
  | cons a as ih =>
    cases l₂ with
    | nil => simp [isPre]
    | cons b bs =>
      simp only [isPre, Bool.and_eq_true, decide_eq_true_eq, ih, List.cons_append,
        List.cons.injEq]
      constructor
      · rintro ⟨rfl, t, rfl⟩
        exact ⟨t, rfl, rfl⟩
      · rintro ⟨t, rfl, rfl⟩
        exact ⟨rfl, t, rfl⟩

theorem layerRegMatch_iff (p : String) : layerRegMatch p = true ↔ LayerRegSpec p := by
  unfold layerRegMatch LayerRegSpec
  rw [List.any_eq_true]
  constructor
  · rintro ⟨i, hi, hcond⟩
    rw [List.mem_range] at hi
    simp only [Bool.and_eq_true, decide_eq_true_eq, List.all_eq_true] at hcond
    obtain ⟨⟨⟨h1, h2⟩, h3⟩, h4⟩ := hcond
    rw [isPre_iff] at h2
    obtain ⟨t, ht⟩ := h2
    refine ⟨p.data.take i, t, ?_, ?_, ?_, ?_⟩
    · conv_lhs => rw [← List.take_append_drop i p.data]
      rw [ht, List.append_assoc]
    · intro hnil
      have hlen := congrArg List.length hnil
      rw [List.length_take] at hlen
      simp only [List.length_nil] at hlen
      omega
    · intro hmem
      exact (h3 _ hmem) rfl
    · intro hmem
      have hdrop : p.data.drop (i + layerNeedle.length) = t := by
        rw [← List.drop_drop, ht]
        exact List.drop_left layerNeedle t
      rw [hdrop] at h4
      exact (h4 _ hmem) rfl
  · rintro ⟨s1, s2, hp, hne, hn1, hn2⟩
    have hdrop1 : p.data.drop s1.length = layerNeedle ++ s2 := by
      rw [hp, List.append_assoc]
      exact List.drop_left s1 _
    have htake1 : p.data.take s1.length = s1 := by
      rw [hp, List.append_assoc]
      exact List.take_left s1 _
    refine ⟨s1.length, ?_, ?_⟩
    · rw [List.mem_range, hp]
      simp only [List.length_append]
      have : 0 < layerNeedle.length := by decide
      omega
    · simp only [Bool.and_eq_true, decide_eq_true_eq, List.all_eq_true]
      refine ⟨⟨⟨?_, ?_⟩, ?_⟩, ?_⟩
      · cases s1 with
        | nil => exact absurd rfl hne
        | cons a as => simp
      · rw [hdrop1, isPre_iff]
        exact ⟨s2, rfl⟩
      · rw [htake1]
        intro x hx hx'
        exact hn1 (hx' ▸ hx)
      · have hdrop2 : p.data.drop (s1.length + layerNeedle.length) = s2 := by
          rw [← List.drop_drop, hdrop1]
          exact List.drop_left layerNeedle s2
        rw [hdrop2]
        intro x hx hx'
        exact hn2 (hx' ▸ hx)

/-- Claim C6: the default routing predicate `NeedUseDragonfly` holds exactly
for GET requests whose URL path matches `^.+/blobs/sha256.*$`: a non-empty
newline-free prefix, the literal `/blobs/sha256`, and a newline-free tail. -/
theorem needUseDragonfly_iff (req : Request) :
    NeedUseDragonfly req = true ↔ req.method = "GET" ∧ LayerRegSpec req.urlPath := by
  unfold NeedUseDragonfly
  rw [Bool.and_eq_true, beq_iff_eq, layerRegMatch_iff]

/-- Witness for C6: an image-layer GET matches; a plain page GET does not. -/
theorem needUseDragonfly_iff_witness :
    NeedUseDragonfly reqLayer = true ∧ NeedUseDragonfly reqDirect = false :=
  ⟨(needUseDragonfly_iff reqLayer).mpr
    ⟨rfl, "/v2/library/nginx".data, ":ab12".data, by decide, by decide, by decide, by decide⟩,
   by decide⟩

/-! ## C8: pass-through headers (corrected) -/

/-- Counterexample to claim C8 as stated: on a request the predicate
rejects, the forwarded headers are not identical to the incoming ones — the
`Host` header is set from the request URL's host. -/
theorem roundTrip_direct_headers_not_identical :
    NeedUseDragonfly reqDirect = false
    ∧ roundTrip NeedUseDragonfly "" "" reqDirect
        = RoundTripAction.direct [("Host", "example.com")]
    ∧ hGet [("Host", "example.com")] "Host" ≠ hGet reqDirect.header "Host" := by
  refine ⟨by decide, by decide, by decide⟩

/-- Claim C8 (amended): a request the predicate rejects is forwarded to the
base round tripper with its headers unchanged except for `Host`, which is
set to the request URL's host. -/
theorem roundTrip_direct_sets_host (df db : String) (req : Request)
    (hreq : NeedUseDragonfly req = false) :
    roundTrip NeedUseDragonfly df db req
      = RoundTripAction.direct (hSet req.header "Host" req.urlHost)
    ∧ hGet (hSet req.header "Host" req.urlHost) "Host" = req.urlHost
    ∧ (∀ k, k ≠ "Host" → hGet (hSet req.header "Host" req.urlHost) k = hGet req.header k) := by
  refine ⟨?_, ?_, ?_⟩
  · simp [roundTrip, hreq]
  · rw [hGet_hSet, if_pos rfl]
  · intro k hk
    rw [hGet_hSet, if_neg hk]

/-- Witness for C8 (amended) at a concrete request. -/
theorem roundTrip_direct_sets_host_witness :
    roundTrip NeedUseDragonfly "" "" reqDirect
      = RoundTripAction.direct [("Host", "example.com")]
    ∧ hGet [("Host", "example.com")] "X-Other" = hGet reqDirect.header "X-Other" :=
  ⟨((roundTrip_direct_sets_host "" "" reqDirect (by decide)).1).trans (by decide),
   (roundTrip_direct_sets_host "" "" reqDirect (by decide)).2.2 "X-Other" (by decide)⟩

/-! ## C9: header harvesting on the dragonfly route -/

theorem hGet_processRequestHeaders (df db : String) (h : Header) (k : String) :
    hGet (processRequestHeaders df db h).header k =
      if k ∈ removedRequestHeaderKeys then "" else hGet h k := by
  simp only [processRequestHeaders, delHopHeaders]
  rw [hGet_delHeaders, hGet_delHeaders, hGet_hDel, hGet_hDel, hGet_hDel]
  by_cases hmem : k ∈ removedRequestHeaderKeys
  · rw [if_pos hmem]
    simp only [removedRequestHeaderKeys, List.mem_cons, List.mem_append] at hmem
    rcases hmem with rfl | rfl | rfl | h2 | h1
    · rw [if_neg (by decide), if_neg (by decide), if_neg (by decide), if_neg (by decide),
        if_pos rfl]
    · rw [if_neg (by decide), if_neg (by decide), if_neg (by decide), if_pos rfl]
    · rw [if_neg (by decide), if_neg (by decide), if_pos rfl]
    · by_cases h1 : k ∈ traceContextFields
      · rw [if_pos h1]
      · rw [if_neg h1, if_pos h2]
    · rw [if_pos h1]
  · rw [if_neg hmem]
    simp only [removedRequestHeaderKeys, List.mem_cons, List.mem_append, not_or] at hmem
    obtain ⟨nAE, nF, nB, nHop, nTrace⟩ := hmem
    rw [if_neg nTrace, if_neg nHop, if_neg nB, if_neg nF, if_neg nAE]

/-- Claim C9: on the dragonfly route, `Accept-Encoding`, the hop-by-hop
headers and the trace-context headers are removed, `X-Dragonfly-Filter` and
`X-Dragonfly-Biz` are harvested into filter and tag with configured
defaults, `Range` is copied into the meta, and every other header passes
through unchanged into the meta handed to `StartStreamTask`. -/
theorem processRequestHeaders_spec (df db : String) (req : Request)
    (hroute : NeedUseDragonfly req = true) :
    roundTrip NeedUseDragonfly df db req
      = RoundTripAction.viaDragonfly (processRequestHeaders df db req.header)
    ∧ (∀ k, k ∈ removedRequestHeaderKeys →
        hGet (processRequestHeaders df db req.header).header k = "")
    ∧ (∀ k, k ∉ removedRequestHeaderKeys →
        hGet (processRequestHeaders df db req.header).header k = hGet req.header k)
    ∧ (processRequestHeaders df db req.header).range = hGet req.header "Range"
    ∧ (processRequestHeaders df db req.header).filter =
        (if hGet req.header "X-Dragonfly-Filter" = "" then df
         else hGet req.header "X-Dragonfly-Filter")
    ∧ (processRequestHeaders df db req.header).tag =
        (if hGet req.header "X-Dragonfly-Biz" = "" then db
         else hGet req.header "X-Dragonfly-Biz") := by
  refine ⟨by simp [roundTrip, hroute], ?_, ?_, ?_, ?_, ?_⟩
  · intro k hk
    rw [hGet_processRequestHeaders, if_pos hk]
  · intro k hk
    rw [hGet_processRequestHeaders, if_neg hk]
  · simp only [processRequestHeaders]
    rw [hGet_hDel, if_neg (show ¬("Range" = "Accept-Encoding") by decide)]
  · simp only [processRequestHeaders]
    rw [hGet_hDel, if_neg (show ¬("X-Dragonfly-Filter" = "Accept-Encoding") by decide)]
  · simp only [processRequestHeaders]
    rw [hGet_hDel, if_neg (show ¬("X-Dragonfly-Biz" = "X-Dragonfly-Filter") by decide),
      hGet_hDel, if_neg (show ¬("X-Dragonfly-Biz" = "Accept-Encoding") by decide)]

/-- Witness for C9 at a concrete header set: `User-Agent` is stripped,
`X-Custom` passes through, `Range` is harvested, the filter comes from the
header and the tag from the default. -/
theorem processRequestHeaders_spec_witness :
    hGet (processRequestHeaders "df" "db" reqLayer.header).header "User-Agent" = ""
    ∧ hGet (processRequestHeaders "df" "db" reqLayer.header).header "X-Custom" = "v"
    ∧ (processRequestHeaders "df" "db" reqLayer.header).range = "bytes=0-99"
    ∧ (processRequestHeaders "df" "db" reqLayer.header).filter = "f1"
    ∧ (processRequestHeaders "df" "db" reqLayer.header).tag = "db" :=
  ⟨(processRequestHeaders_spec "df" "db" reqLayer (by decide)).2.1 "User-Agent" (by decide),
   (processRequestHeaders_spec "df" "db" reqLayer (by decide)).2.2.1 "X-Custom" (by decide),
   ((processRequestHeaders_spec "df" "db" reqLayer (by decide)).2.2.2.1).trans (by decide),
   ((processRequestHeaders_spec "df" "db" reqLayer (by decide)).2.2.2.2.1).trans (by decide),
   ((processRequestHeaders_spec "df" "db" reqLayer (by decide)).2.2.2.2.2).trans (by decide)⟩

/-! ## C1: back-source after a partial peer download -/

theorem backSourceLoop_fills (ps : Nat) (origin : List Nat) :
    ∀ (n i : Nat) (store : PieceStoreState),
      (∀ j b, store j = some b → b = pieceContent origin ps j) →
      (∀ j, i ≤ j → j < i + n →
        backSourceLoop ps i n (origin.drop (i * ps)) store j
          = some (pieceContent origin ps j))
      ∧ (∀ j b, store j = some b →
          backSourceLoop ps i n (origin.drop (i * ps)) store j = some b) := by
  intro n
  induction n with
  | zero =>
    intro i store hstore
    exact ⟨fun j hj1 hj2 => absurd hj2 (by omega), fun j b hj => hj⟩
  | succ n ih =>
    intro i store hstore
    have hdrop : (origin.drop (i * ps)).drop ps = origin.drop ((i + 1) * ps) := by
      rw [List.drop_drop]
      congr 1
      ring
    cases hsi : store i with
    | some b =>
      have hstep : backSourceLoop ps i (n + 1) (origin.drop (i * ps)) store
          = backSourceLoop ps (i + 1) n (origin.drop ((i + 1) * ps)) store := by
        simp [backSourceLoop, hsi, hdrop]
      obtain ⟨ihfill, ihpres⟩ := ih (i + 1) store hstore
      constructor
      · intro j hj1 hj2
        rw [hstep]
        by_cases hji : j = i
        · subst hji
          exact (ihpres j b hsi).trans (by rw [hstore j b hsi])
        · exact ihfill j (by omega) (by omega)
      · intro j b' hj
        rw [hstep]
        exact ihpres j b' hj
    | none =>
      have hstep : backSourceLoop ps i (n + 1) (origin.drop (i * ps)) store
          = backSourceLoop ps (i + 1) n (origin.drop ((i + 1) * ps))
            (fun j => if j = i then some (pieceContent origin ps i) else store j) := by
        simp [backSourceLoop, hsi, hdrop, pieceContent]
      have hstore' : ∀ j b,
          (fun j => if j = i then some (pieceContent origin ps i) else store j) j = some b →
          b = pieceContent origin ps j := by
        intro j b hj
        by_cases hji : j = i
        · subst hji
          simp only [if_pos rfl] at hj
          exact (Option.some.inj hj).symm
        · simp only [if_neg hji] at hj
          exact hstore j b hj
      obtain ⟨ihfill, ihpres⟩ := ih (i + 1) _ hstore'
      constructor
      · intro j hj1 hj2
        rw [hstep]
        by_cases hji : j = i
        · subst hji
          exact ihpres j _ (by simp)
        · exact ihfill j (by omega) (by omega)
      · intro j b hj
        rw [hstep]
        have hji : j ≠ i := by
          intro hh
          rw [hh, hsi] at hj
          cases hj
        exact ihpres j b (by simp only [if_neg hji]; exact hj)

theorem readAllPieces_concat (origin : List Nat) (ps : Nat) (store : PieceStoreState) :
    ∀ m, (∀ j, j < m → store j = some (pieceContent origin ps j)) →
      readAllPieces store m = some (origin.take (m * ps)) := by
  intro m
  induction m with
  | zero =>
    intro _
    simp [readAllPieces]
  | succ m ih =>
    intro hall
    have h1 := ih (fun j hj => hall j (by omega))
    have h2 := hall m (by omega)
    simp only [readAllPieces, h1, h2]
    have hm : (m + 1) * ps = m * ps + ps := by ring
    rw [hm, List.take_add]
    rfl

theorem le_numPieces_mul (L ps : Nat) (hps : 0 < ps) : L ≤ numPieces L ps * ps := by
  rcases Nat.eq_zero_or_pos L with hL | hL
  · subst hL
    simp
  · have hrw : L + ps - 1 = (L - 1) + ps := by omega
    unfold numPieces
    rw [hrw, Nat.add_div_right _ hps, Nat.add_mul, Nat.one_mul,
      Nat.mul_comm ((L - 1) / ps) ps]
    have hd := Nat.div_add_mod (L - 1) ps
    have hm := Nat.mod_lt (L - 1) hps
    set q := (L - 1) / ps with hq
    set r := (L - 1) % ps with hr
    set K := ps * q with hK
    clear_value q r
    clear_value K
    omega

/-- Claim C1: back-sourcing after some pieces were already fetched from
peers skips the already-stored byte ranges in the origin stream (they are
not re-stored) and, provided the stored pieces hold the origin's bytes for
their ranges, the task read to completion yields exactly the origin content
byte-for-byte. -/
theorem backSource_partial_restores_origin (origin : List Nat) (ps : Nat)
    (stored : PieceStoreState) (hps : 0 < ps)
    (hstored : ∀ j b, stored j = some b → b = pieceContent origin ps j) :
    readAllPieces (backSource origin ps stored) (numPieces origin.length ps) = some origin
    ∧ (∀ j b, stored j = some b → backSource origin ps stored j = some b) := by
  obtain ⟨hfill, hpres⟩ :=
    backSourceLoop_fills ps origin (numPieces origin.length ps) 0 stored hstored
  simp only [Nat.zero_mul, List.drop_zero, Nat.zero_add] at hfill hpres
  constructor
  · rw [readAllPieces_concat origin ps (backSource origin ps stored)
      (numPieces origin.length ps) (fun j hj => hfill j (Nat.zero_le j) hj)]
    rw [List.take_of_length_le (le_numPieces_mul origin.length ps hps)]
  · intro j b hj
    exact hpres j b hj

/-- Witness for C1: 8 origin bytes, piece size 3, piece 0 already stored
from a peer; back-source restores the full origin and keeps piece 0. -/
theorem backSource_partial_restores_origin_witness :
    readAllPieces
        (backSource [10, 11, 12, 13, 14, 15, 16, 17] 3
          (fun j => if j = 0 then some [10, 11, 12] else none))
        (numPieces 8 3)
      = some [10, 11, 12, 13, 14, 15, 16, 17]
    ∧ backSource [10, 11, 12, 13, 14, 15, 16, 17] 3
        (fun j => if j = 0 then some [10, 11, 12] else none) 0 = some [10, 11, 12] := by
  have T := backSource_partial_restores_origin [10, 11, 12, 13, 14, 15, 16, 17] 3
    (fun j => if j = 0 then some [10, 11, 12] else none) (by decide)
    (by
      intro j b hj
      by_cases h0 : j = 0
      · subst h0
        simp only [if_pos rfl] at hj
        rw [← Option.some.inj hj]
        decide
      · simp only [if_neg h0] at hj
        cases hj)
  exact ⟨T.1, T.2 0 [10, 11, 12] (by decide)⟩

end Dragonfly
